import Mathlib

/-!
# Event manager backend: registration ledger, bulk import and check-in

A shallow embedding of `src/controllers/participant.controller.js`,
`src/controllers/event.controller.js` and the two Mongoose models
(`src/models/event.model.js`, `src/models/participant.model.js`).

Modelling conventions.

* The two MongoDB collections are lists of documents; a document carries its
  `_id`.  `findById` returns the first document with the given `_id`,
  `findByIdAndUpdate` rewrites the documents with that `_id`, `remove` drops
  them.  In a collection whose `_id`s are pairwise distinct (MongoDB's own
  guarantee) these are exactly the single-document operations.
* An `ObjectId` is a natural number.  The `_id` of a document that is being
  created, whether the driver generates it or the request body carries it
  (the handlers spread `req.body` into the new document), is an argument of
  the operation that creates it.  MongoDB refuses a second document under an
  `_id` its collection already holds; that fault is not modelled, the
  operations are stated for ids that are free in the collection.
* A request body carries the data fields of the schema; `createdAt` is not
  modelled.
* `new Date()` is an argument `now` of the operation that reads the clock.
* `Number` fields (`capacity`, `registered`) are integers: `$inc` by `-1` has no
  lower bound in the schema, so `registered` may become negative.
* `validationResult(req)` (express-validator, outside the repository) is the
  field `errors` of a request.
* Handlers run one at a time and the store itself does not fail; the only fault
  that reaches a `catch` block is a Mongoose schema validation error.
-/

namespace EventManager

abbrev ObjectId := Nat

/-- The `status` enum of `eventSchema`. -/
inductive Status where
  | upcoming
  | ongoing
  | completed
  | cancelled
  deriving DecidableEq, Repr

/-- A document of the `Event` collection (`eventSchema`); `createdAt` is left out. -/
structure Event where
  _id : ObjectId
  name : String
  description : String
  date : Nat
  location : String
  capacity : Int
  registered : Int
  organizer : ObjectId
  participants : List ObjectId
  status : Status
  deriving DecidableEq, Repr

/-- A document of the `Participant` collection (`participantSchema`); `createdAt`
is left out. -/
structure Participant where
  _id : ObjectId
  name : String
  email : String
  phone : String
  events : List ObjectId
  checkedIn : Bool
  checkInTime : Option Nat
  deriving DecidableEq, Repr

/-- The database: the two collections. -/
structure Store where
  events : List Event
  participants : List Participant
  deriving DecidableEq, Repr

/-- The part of a request body that `participantSchema` keeps: the contact
fields as they are after the schema setters (`trim`, `lowercase`), an absent
field being the empty string, and the optional check-in fields. -/
structure ParticipantBody where
  name : String
  email : String
  phone : String
  checkedIn : Option Bool
  checkInTime : Option Nat
  deriving DecidableEq, Repr

/-- The part of a request body that `eventSchema` keeps. -/
structure EventBody where
  name : String
  description : String
  date : Nat
  location : String
  capacity : Int
  registered : Option Int
  participants : Option (List ObjectId)
  status : Option Status
  deriving DecidableEq, Repr

/-- What a handler passes to `res.json`. -/
inductive ResBody where
  /-- The body `{ success: false, message }`. -/
  | failure (message : String)
  /-- The body `{ errors: errors.array() }`, with `success: false` in the event controller. -/
  | errors (errs : List String)
  /-- The body `{ success: true, message }`. -/
  | success (message : String)
  /-- A participant document. -/
  | participant (p : Participant)
  /-- An array of participant documents. -/
  | participants (ps : List Participant)
  /-- The body `{ success: true, data: participant }`. -/
  | participantData (p : Participant)
  /-- The body `{ success: true, data: event }`. -/
  | eventData (e : Event)
  deriving DecidableEq, Repr

/-- The HTTP response: `res.status(status).json(body)`. -/
structure Response where
  status : Nat
  body : ResBody
  deriving DecidableEq, Repr

/-! ## Mongoose model operations -/

/-- Mongoose `Event.findById(id)`. -/
def Event.findById (s : Store) (id : ObjectId) : Option Event :=
  s.events.find? (fun e => e._id == id)

/-- Mongoose `Participant.findById(id)`. -/
def Participant.findById (s : Store) (id : ObjectId) : Option Participant :=
  s.participants.find? (fun p => p._id == id)

/-- Mongoose `Event.findByIdAndUpdate(id, { $push: { participants: { $each: push } },
$inc: { registered: inc } })`; without a matching document nothing changes. -/
def Event.findByIdAndUpdate (s : Store) (id : ObjectId) (push : List ObjectId)
    (inc : Int) : Store :=
  { s with events := s.events.map (fun e =>
      if e._id = id then
        { e with participants := e.participants ++ push, registered := e.registered + inc }
      else e) }

/-- The `required` validators of `participantSchema`. -/
def Participant.validate (b : ParticipantBody) : Bool :=
  b.name != "" && b.email != "" && b.phone != ""

/-- The `required` validators of `eventSchema` on the string fields (`date`,
`capacity` and `organizer` are present by their type). -/
def Event.validate (b : EventBody) : Bool :=
  b.name != "" && b.description != "" && b.location != ""

/-- The document Mongoose builds from `{ ...body, events }`, schema defaults
applied (`checkedIn: false`). -/
def Participant.build (id : ObjectId) (b : ParticipantBody) (events : List ObjectId) :
    Participant :=
  { _id := id, name := b.name, email := b.email, phone := b.phone, events := events,
    checkedIn := b.checkedIn.getD false, checkInTime := b.checkInTime }

/-- The document Mongoose builds from `{ ...body, organizer }`, schema defaults
applied (`registered: 0`, `participants: []`, `status: 'upcoming'`). -/
def Event.build (id : ObjectId) (b : EventBody) (organizer : ObjectId) : Event :=
  { _id := id, name := b.name, description := b.description, date := b.date,
    location := b.location, capacity := b.capacity, registered := b.registered.getD 0,
    organizer := organizer, participants := b.participants.getD [],
    status := b.status.getD Status.upcoming }

/-- Mongoose `Participant.create({ ...body, events })`: `none` when validation throws. -/
def Participant.create (s : Store) (id : ObjectId) (b : ParticipantBody)
    (events : List ObjectId) : Option (Store × Participant) :=
  if Participant.validate b then
    some ({ s with participants := s.participants ++ [Participant.build id b events] },
      Participant.build id b events)
  else none

/-- The documents `insertMany` builds: the `k`-th record gets the id `ids (start + k)`. -/
def Participant.buildMany (ids : Nat → ObjectId) (events : List ObjectId) :
    Nat → List ParticipantBody → List Participant
  | _, [] => []
  | start, b :: bs =>
    Participant.build (ids start) b events :: Participant.buildMany ids events (start + 1) bs

/-- Mongoose `Participant.insertMany(records.map(p => ({ ...p, events })))`: every document
is validated before anything is written; `none` when validation throws. -/
def Participant.insertMany (s : Store) (ids : Nat → ObjectId) (records : List ParticipantBody)
    (events : List ObjectId) : Option (Store × List Participant) :=
  if records.all Participant.validate then
    some ({ s with participants := s.participants ++ Participant.buildMany ids events 0 records },
      Participant.buildMany ids events 0 records)
  else none

/-- Mongoose `Event.create({ ...body, organizer })`: `none` when validation throws. -/
def Event.create (s : Store) (id : ObjectId) (b : EventBody) (organizer : ObjectId) :
    Option (Store × Event) :=
  if Event.validate b then
    some ({ s with events := s.events ++ [Event.build id b organizer] },
      Event.build id b organizer)
  else none

/-- Mongoose `participant.remove()`. -/
def Participant.remove (s : Store) (p : Participant) : Store :=
  { s with participants := s.participants.filter (fun q => q._id != p._id) }

/-- Mongoose `event.remove()`. -/
def Event.remove (s : Store) (e : Event) : Store :=
  { s with events := s.events.filter (fun d => d._id != e._id) }

/-- Mongoose `participant.save()`: the loaded and modified document is written back. -/
def Participant.save (s : Store) (p : Participant) : Store :=
  { s with participants := s.participants.map (fun q => if q._id = p._id then p else q) }

/-! ## Requests -/

/-- Request of `POST /participants`. -/
structure CreateParticipantReq where
  errors : List String
  eventId : Option ObjectId
  body : ParticipantBody
  deriving DecidableEq, Repr

/-- Request of `POST /events`; `user` is `req.user._id`. -/
structure CreateEventReq where
  errors : List String
  user : ObjectId
  body : EventBody
  deriving DecidableEq, Repr

/-! ## `participant.controller.js` -/

/-- Handler `exports.bulkImport`. -/
def bulkImport (s : Store) (ids : Nat → ObjectId) (eventId : ObjectId)
    (participants : List ParticipantBody) : Store × Response :=
  match Participant.insertMany s ids participants [eventId] with
  | none => (s, ⟨500, .failure "Error importing participants"⟩)
  | some (s1, createdParticipants) =>
    (Event.findByIdAndUpdate s1 eventId (createdParticipants.map (fun p => p._id))
        createdParticipants.length,
      ⟨201, .participants createdParticipants⟩)

/-- Handler `exports.createParticipant`. -/
def createParticipant (s : Store) (newId : ObjectId) (req : CreateParticipantReq) :
    Store × Response :=
  if !req.errors.isEmpty then (s, ⟨400, .errors req.errors⟩)
  else if (match req.eventId with
      | some eventId => (Event.findById s eventId).isNone
      | none => false) then
    (s, ⟨404, .failure "Event not found"⟩)
  else
    match Participant.create s newId req.body
        (match req.eventId with | some eventId => [eventId] | none => []) with
    | none => (s, ⟨500, .failure "Error creating participant"⟩)
    | some (s1, participant) =>
      ((match req.eventId with
        | some eventId => Event.findByIdAndUpdate s1 eventId [] 1
        | none => s1),
        ⟨201, .participant participant⟩)

/-- Handler `exports.deleteParticipant`. -/
def deleteParticipant (s : Store) (id : ObjectId) : Store × Response :=
  match Participant.findById s id with
  | none => (s, ⟨404, .failure "Participant not found"⟩)
  | some participant =>
    (Participant.remove
        (participant.events.foldl (fun st eventId => Event.findByIdAndUpdate st eventId [] (-1)) s)
        participant,
      ⟨200, .success "Participant deleted successfully"⟩)

/-- Handler `exports.checkInParticipant`. -/
def checkInParticipant (s : Store) (now : Nat) (id : ObjectId) (eventId : ObjectId) :
    Store × Response :=
  match Participant.findById s id with
  | none => (s, ⟨404, .failure "Participant not found"⟩)
  | some participant =>
    if !participant.events.contains eventId then
      (s, ⟨400, .failure "Participant not registered for this event"⟩)
    else if participant.checkedIn then
      (s, ⟨400, .failure "Participant already checked in"⟩)
    else
      (Participant.save s { participant with checkedIn := true, checkInTime := some now },
        ⟨200, .participantData { participant with checkedIn := true, checkInTime := some now }⟩)

/-! ## `event.controller.js` -/

/-- Handler `exports.createEvent`. -/
def createEvent (s : Store) (newId : ObjectId) (req : CreateEventReq) : Store × Response :=
  if !req.errors.isEmpty then (s, ⟨400, .errors req.errors⟩)
  else
    match Event.create s newId req.body req.user with
    | none => (s, ⟨500, .failure "Error creating event"⟩)
    | some (s1, event) => (s1, ⟨201, .eventData event⟩)

/-- Handler `exports.deleteEvent`; `user` is `req.user._id`. -/
def deleteEvent (s : Store) (user : ObjectId) (id : ObjectId) : Store × Response :=
  match Event.findById s id with
  | none => (s, ⟨404, .failure "Event not found"⟩)
  | some event =>
    if event.organizer != user then
      (s, ⟨403, .failure "Not authorized to delete this event"⟩)
    else
      (Event.remove s event, ⟨200, .success "Event deleted successfully"⟩)

/-! ## Runs of registrations -/

/-- Successive `createParticipant` calls, each with the id the driver generated
for it; the responses are collected in call order. -/
def registerAll (s : Store) : List (ObjectId × CreateParticipantReq) → Store × List Response
  | [] => (s, [])
  | (newId, req) :: rest =>
    ((registerAll (createParticipant s newId req).1 rest).1,
      (createParticipant s newId req).2 :: (registerAll (createParticipant s newId req).1 rest).2)

/-! ## Sample data -/

/-- A valid contact record. -/
def sampleBody : ParticipantBody :=
  { name := "Ada", email := "ada@example.org", phone := "1", checkedIn := none,
    checkInTime := none }

/-- An event with `capacity = 2`, `registered = 0` and no participants. -/
def sampleEvent : Event :=
  { _id := 0, name := "Launch", description := "d", date := 0, location := "Freetown",
    capacity := 2, registered := 0, organizer := 7, participants := [],
    status := Status.upcoming }

/-- A store that holds `sampleEvent` only. -/
def sampleStore : Store := { events := [sampleEvent], participants := [] }

/-- A valid registration request for `sampleEvent`. -/
def sampleReq : CreateParticipantReq :=
  { errors := [], eventId := some 0, body := sampleBody }

/-- A participant registered for `sampleEvent`. -/
def sampleParticipant : Participant :=
  { _id := 1, name := "Ada", email := "ada@example.org", phone := "1", events := [0],
    checkedIn := false, checkInTime := none }

/-- The store with `sampleEvent` (still at `registered = 0`) and `sampleParticipant`. -/
def zeroCounterStore : Store := { events := [sampleEvent], participants := [sampleParticipant] }

/-- A store with two events, ids 0 and 5, both at `registered = 1`, and one
participant, id 1, registered for both. -/
def twoEventStore : Store :=
  { events := [{ sampleEvent with registered := 1 },
               { sampleEvent with _id := 5, name := "Retro", registered := 1 }],
    participants := [{ sampleParticipant with events := [0, 5] }] }

/-! ## Reachable stores -/

/-- No event holds the id, so an insert into the `Event` collection under it is
accepted. -/
abbrev Store.freeEventId (s : Store) (id : ObjectId) : Prop :=
  ∀ E ∈ s.events, E._id ≠ id

/-- No participant holds the id, so an insert into the `Participant` collection
under it is accepted. -/
abbrev Store.freeParticipantId (s : Store) (id : ObjectId) : Prop :=
  ∀ p ∈ s.participants, p._id ≠ id

/-- No existing participant has the id in its `events` list. -/
abbrev Store.unlisted (s : Store) (id : ObjectId) : Prop :=
  ∀ p ∈ s.participants, id ∉ p.events

/-- The number of existing participants whose `events` list contains `e`. -/
def registrations (s : Store) (e : ObjectId) : Nat :=
  s.participants.countP (fun p => p.events.contains e)

/-- The stores the handlers reach from the empty store by `createEvent` (the
body setting neither `registered` nor `participants`), `createParticipant`,
`bulkImport`, `deleteParticipant`, `checkInParticipant` and `deleteEvent`, with
any arguments and whatever the response.  The only condition on the id of a new
document is the one MongoDB imposes: it is free in its collection, and the ids
of one bulk insert are pairwise distinct.  In particular an event may be
created under an id that a deleted event had, or that `bulkImport` was given
before any event held it. -/
inductive Reachable : Store → Prop where
  | empty : Reachable { events := [], participants := [] }
  | createEvent {s : Store} (newId : ObjectId) (req : CreateEventReq) :
      Reachable s → s.freeEventId newId → req.body.registered = none →
      req.body.participants = none → Reachable (createEvent s newId req).1
  | createParticipant {s : Store} (newId : ObjectId) (req : CreateParticipantReq) :
      Reachable s → s.freeParticipantId newId → Reachable (createParticipant s newId req).1
  | bulkImport {s : Store} (ids : Nat → ObjectId) (eventId : ObjectId)
      (records : List ParticipantBody) :
      Reachable s → (∀ k, k < records.length → s.freeParticipantId (ids k)) →
      (∀ i j, i < records.length → j < records.length → ids i = ids j → i = j) →
      Reachable (bulkImport s ids eventId records).1
  | deleteParticipant {s : Store} (id : ObjectId) :
      Reachable s → Reachable (deleteParticipant s id).1
  | checkInParticipant {s : Store} (now : Nat) (id eventId : ObjectId) :
      Reachable s → Reachable (checkInParticipant s now id eventId).1
  | deleteEvent {s : Store} (user id : ObjectId) :
      Reachable s → Reachable (deleteEvent s user id).1

/-- The reachable stores of `Reachable` with one more condition, on `createEvent`
alone: the id of the new event is in no existing participant's `events` list. -/
inductive ReachableUnlisted : Store → Prop where
  | empty : ReachableUnlisted { events := [], participants := [] }
  | createEvent {s : Store} (newId : ObjectId) (req : CreateEventReq) :
      ReachableUnlisted s → s.freeEventId newId → s.unlisted newId →
      req.body.registered = none → req.body.participants = none →
      ReachableUnlisted (createEvent s newId req).1
  | createParticipant {s : Store} (newId : ObjectId) (req : CreateParticipantReq) :
      ReachableUnlisted s → s.freeParticipantId newId →
      ReachableUnlisted (createParticipant s newId req).1
  | bulkImport {s : Store} (ids : Nat → ObjectId) (eventId : ObjectId)
      (records : List ParticipantBody) :
      ReachableUnlisted s → (∀ k, k < records.length → s.freeParticipantId (ids k)) →
      (∀ i j, i < records.length → j < records.length → ids i = ids j → i = j) →
      ReachableUnlisted (bulkImport s ids eventId records).1
  | deleteParticipant {s : Store} (id : ObjectId) :
      ReachableUnlisted s → ReachableUnlisted (deleteParticipant s id).1
  | checkInParticipant {s : Store} (now : Nat) (id eventId : ObjectId) :
      ReachableUnlisted s → ReachableUnlisted (checkInParticipant s now id eventId).1
  | deleteEvent {s : Store} (user id : ObjectId) :
      ReachableUnlisted s → ReachableUnlisted (deleteEvent s user id).1

/-- What the stores of `ReachableUnlisted` keep true: participant ids are pairwise distinct,
no participant lists an event twice, and every event's counter is the number of
participants that list it. -/
structure Consistent (s : Store) : Prop where
  ids_nodup : (s.participants.map (fun p => p._id)).Nodup
  events_nodup : ∀ p ∈ s.participants, p.events.Nodup
  counter : ∀ E ∈ s.events, E.registered = (registrations s E._id : Nat)

/-- A valid request to create an event that leaves `registered` and
`participants` to the schema defaults. -/
def sampleEventReq : CreateEventReq :=
  { errors := [], user := 7,
    body := { name := "Launch", description := "d", date := 0, location := "Freetown",
              capacity := 2, registered := none, participants := none, status := none } }

/-- The store after `createEvent` with `sampleEventReq` and then
`createParticipant` with `sampleReq`, starting from the empty store. -/
def registeredStore : Store :=
  (createParticipant (createEvent { events := [], participants := [] } 0 sampleEventReq).1 1
    sampleReq).1

/-- The store after `deleteEvent` of event 0 by its organizer in
`registeredStore`, followed by `createEvent` under the id 0 again: participant 1
still lists event 0. -/
def recreatedStore : Store :=
  (createEvent (deleteEvent registeredStore 7 0).1 0 sampleEventReq).1

/-- The store after `deleteParticipant` of participant 1 in `recreatedStore`. -/
def negativeStore : Store := (deleteParticipant recreatedStore 1).1

/-! ## Lookup lemmas -/

theorem participant_findById_id {s : Store} {id : ObjectId} {p : Participant}
    (h : Participant.findById s id = some p) : p._id = id := by
  have := List.find?_some h
  simpa using this

theorem participant_findById_mem {s : Store} {id : ObjectId} {p : Participant}
    (h : Participant.findById s id = some p) : p ∈ s.participants :=
  List.mem_of_find?_eq_some h

theorem participant_findById_save {s : Store} {id : ObjectId} {p q : Participant}
    (h : Participant.findById s id = some p) (hq : q._id = p._id) :
    Participant.findById (Participant.save s q) id = some q := by
  have hid := participant_findById_id h
  unfold Participant.findById Participant.save at *
  simp only [List.find?_map]
  have hfun : ((fun r : Participant => r._id == id) ∘ fun r => if r._id = q._id then q else r)
      = fun r : Participant => r._id == id := by
    funext r
    by_cases hr : r._id = q._id
    · simp [hr, hq, hid]
    · simp [hr]
  rw [hfun, h]
  simp [hq]

theorem event_find_map {l : List Event} {f : Event → Event} (hf : ∀ e, (f e)._id = e._id)
    (id : ObjectId) :
    (l.map f).find? (fun e => e._id == id) = (l.find? (fun e => e._id == id)).map f := by
  rw [List.find?_map]
  have hfun : ((fun e : Event => e._id == id) ∘ f) = fun e : Event => e._id == id := by
    funext e
    simp [hf]
  rw [hfun]

theorem event_findById_update (s : Store) (id : ObjectId) (push : List ObjectId) (inc : Int)
    (e : ObjectId) :
    Event.findById (Event.findByIdAndUpdate s id push inc) e
      = (Event.findById s e).map (fun E =>
          if E._id = id then
            { E with participants := E.participants ++ push, registered := E.registered + inc }
          else E) := by
  unfold Event.findById Event.findByIdAndUpdate
  apply event_find_map
  intro E
  by_cases h : E._id = id <;> simp [h]

theorem event_findById_id {s : Store} {id : ObjectId} {E : Event}
    (h : Event.findById s id = some E) : E._id = id := by
  have := List.find?_some h
  simpa using this

/-- The loop of `deleteParticipant` in closed form: every event loses as many
registrations as its id has occurrences in the list. -/
theorem decrement_loop (evs : List ObjectId) (s : Store) :
    evs.foldl (fun st eventId => Event.findByIdAndUpdate st eventId [] (-1)) s
      = { s with events := s.events.map (fun E =>
            { E with registered := E.registered - (evs.count E._id : Nat) }) } := by
  induction evs generalizing s with
  | nil =>
    cases s
    simp
  | cons a t ih =>
    rw [List.foldl_cons, ih]
    cases s with
    | mk events participants =>
      simp only [Event.findByIdAndUpdate, List.map_map, Store.mk.injEq, and_true]
      apply List.map_congr_left
      intro E _
      by_cases h : E._id = a
      · subst h
        simp only [Function.comp, if_true, List.append_nil, List.count_cons_self]
        cases E
        simp only [Event.mk.injEq, true_and, and_true]
        push_cast
        ring
      · have h2 : ¬ (a = E._id) := fun h3 => h h3.symm
        simp [Function.comp, h, h2, List.count_cons]

theorem participant_findById_append_fresh {s : Store} {id : ObjectId} {p : Participant}
    (hid : p._id = id) (hfresh : ∀ q ∈ s.participants, q._id ≠ id) :
    Participant.findById { s with participants := s.participants ++ [p] } id = some p := by
  unfold Participant.findById
  have hnone : s.participants.find? (fun q => q._id == id) = none := by
    rw [List.find?_eq_none]
    intro q hq
    simpa using hfresh q hq
  simp [List.find?_append, hnone, hid]

theorem participant_filter_fresh {l : List Participant} {id : ObjectId}
    (hfresh : ∀ q ∈ l, q._id ≠ id) : l.filter (fun q => q._id != id) = l := by
  rw [List.filter_eq_self]
  intro q hq
  simpa using hfresh q hq

/-! ## Check-in -/

/-- C3: for a participant that exists, is not checked in and is registered for
`eventId`, the first `checkInParticipant` answers 200 with the participant now
checked in, the second answers 400 "Participant already checked in", and the
second call leaves the store exactly as the first call left it. -/
theorem checkIn_twice (s : Store) (now1 now2 : Nat) (id eventId : ObjectId) (p : Participant)
    (hp : Participant.findById s id = some p) (hc : p.checkedIn = false)
    (he : eventId ∈ p.events) :
    (checkInParticipant s now1 id eventId).2
        = ⟨200, .participantData { p with checkedIn := true, checkInTime := some now1 }⟩
      ∧ checkInParticipant (checkInParticipant s now1 id eventId).1 now2 id eventId
        = ((checkInParticipant s now1 id eventId).1,
            ⟨400, .failure "Participant already checked in"⟩) := by
  have h1 : checkInParticipant s now1 id eventId
      = (Participant.save s { p with checkedIn := true, checkInTime := some now1 },
          ⟨200, .participantData { p with checkedIn := true, checkInTime := some now1 }⟩) := by
    simp [checkInParticipant, hp, hc, he]
  have h2 : Participant.findById
      (Participant.save s { p with checkedIn := true, checkInTime := some now1 }) id
      = some { p with checkedIn := true, checkInTime := some now1 } :=
    participant_findById_save hp rfl
  rw [h1]
  refine ⟨rfl, ?_⟩
  simp [checkInParticipant, h2, he]

/-- Witness of C3 on `zeroCounterStore`: participant 1 checks in for event 0 at
times 5 and 9. -/
theorem checkIn_twice_witness :
    checkInParticipant (checkInParticipant zeroCounterStore 5 1 0).1 9 1 0
      = ((checkInParticipant zeroCounterStore 5 1 0).1,
          ⟨400, .failure "Participant already checked in"⟩) :=
  (checkIn_twice zeroCounterStore 5 9 1 0 sampleParticipant (by decide) (by decide)
    (by decide)).2

/-- C4: for an existing participant and an event id outside its `events`,
`checkInParticipant` answers 400 "Participant not registered for this event" and
returns the store it was given, whatever the participant's `checkedIn` flag. -/
theorem checkIn_not_registered (s : Store) (now : Nat) (id eventId : ObjectId)
    (p : Participant) (hp : Participant.findById s id = some p) (he : eventId ∉ p.events) :
    checkInParticipant s now id eventId
      = (s, ⟨400, .failure "Participant not registered for this event"⟩) := by
  simp [checkInParticipant, hp, he]

/-- Witness of C4 on `zeroCounterStore`: participant 1 is not registered for
event 3. -/
theorem checkIn_not_registered_witness :
    checkInParticipant zeroCounterStore 5 1 3
      = (zeroCounterStore, ⟨400, .failure "Participant not registered for this event"⟩) :=
  checkIn_not_registered zeroCounterStore 5 1 3 sampleParticipant (by decide) (by decide)

/-! ## Registration and deregistration -/

theorem createParticipant_registered (s : Store) (newId : ObjectId) (req : CreateParticipantReq)
    (e : ObjectId) (E : Event) (hv : req.errors = []) (he : req.eventId = some e)
    (hb : Participant.validate req.body = true) (hE : Event.findById s e = some E) :
    createParticipant s newId req
      = (Event.findByIdAndUpdate
            { s with participants := s.participants ++ [Participant.build newId req.body [e]] }
            e [] 1,
          ⟨201, .participant (Participant.build newId req.body [e])⟩) := by
  simp [createParticipant, hv, he, hE, Participant.create, hb]

theorem createParticipant_event (s : Store) (newId : ObjectId) (req : CreateParticipantReq)
    (e : ObjectId) (E : Event) (hv : req.errors = []) (he : req.eventId = some e)
    (hb : Participant.validate req.body = true) (hE : Event.findById s e = some E) :
    Event.findById (createParticipant s newId req).1 e
      = some { E with registered := E.registered + 1 } := by
  have hid : E._id = e := event_findById_id hE
  rw [createParticipant_registered s newId req e E hv he hb hE, event_findById_update]
  have hE2 : Event.findById
      { s with participants := s.participants ++ [Participant.build newId req.body [e]] } e
      = some E := hE
  rw [hE2]
  simp [hid]

theorem deleteParticipant_found (s : Store) (id : ObjectId) (P : Participant)
    (hP : Participant.findById s id = some P) :
    deleteParticipant s id
      = ({ events := s.events.map (fun E =>
              { E with registered := E.registered - (P.events.count E._id : Nat) }),
           participants := s.participants.filter (fun q => q._id != id) },
          ⟨200, .success "Participant deleted successfully"⟩) := by
  have hid := participant_findById_id hP
  simp [deleteParticipant, hP, decrement_loop, Participant.remove, hid]

theorem event_findById_after_delete (s : Store) (id : ObjectId) (P : Participant)
    (hP : Participant.findById s id = some P) (e : ObjectId) :
    Event.findById (deleteParticipant s id).1 e
      = (Event.findById s e).map (fun E =>
          { E with registered := E.registered - (P.events.count e : Nat) }) := by
  rw [deleteParticipant_found s id P hP]
  unfold Event.findById
  simp only
  rw [event_find_map (f := fun E : Event =>
    { E with registered := E.registered - (P.events.count E._id : Nat) }) (fun _ => rfl)]
  cases h : s.events.find? (fun E => E._id == e) with
  | none => rfl
  | some E =>
    have hid : E._id = e := event_findById_id h
    simp [hid]

/-- C5: in a store where event `e` exists, a valid `createParticipant` with
`eventId = e` answers 201 and raises `e.registered` by one; `deleteParticipant`
of the participant just created (whose id the store did not hold before) then
answers 200, and event `e` is again the document it was before the
registration, so `registered` and `participants` have their old values. -/
theorem register_deregister_roundtrip (s : Store) (newId : ObjectId)
    (req : CreateParticipantReq) (e : ObjectId) (E : Event)
    (hv : req.errors = []) (he : req.eventId = some e)
    (hb : Participant.validate req.body = true) (hE : Event.findById s e = some E)
    (hfresh : ∀ q ∈ s.participants, q._id ≠ newId) :
    (createParticipant s newId req).2
        = ⟨201, .participant (Participant.build newId req.body [e])⟩
      ∧ Event.findById (createParticipant s newId req).1 e
        = some { E with registered := E.registered + 1 }
      ∧ (deleteParticipant (createParticipant s newId req).1 newId).2
        = ⟨200, .success "Participant deleted successfully"⟩
      ∧ Event.findById (deleteParticipant (createParticipant s newId req).1 newId).1 e
        = some E
      ∧ (deleteParticipant (createParticipant s newId req).1 newId).1.participants
        = s.participants := by
  have hc := createParticipant_registered s newId req e E hv he hb hE
  have hfind : Participant.findById (createParticipant s newId req).1 newId
      = some (Participant.build newId req.body [e]) := by
    rw [hc]
    exact participant_findById_append_fresh (s := s) rfl hfresh
  have hev := createParticipant_event s newId req e E hv he hb hE
  refine ⟨by rw [hc], hev, ?_, ?_, ?_⟩
  · rw [deleteParticipant_found _ newId _ hfind]
  · rw [event_findById_after_delete _ newId _ hfind, hev]
    simp [Participant.build]
  · rw [deleteParticipant_found _ newId _ hfind, hc]
    simp only [Event.findByIdAndUpdate]
    rw [List.filter_append, participant_filter_fresh hfresh]
    simp [Participant.build]

/-- Witness of C5 on the sample store: the event is back at `registered = 0`. -/
theorem register_deregister_roundtrip_witness :
    Event.findById (deleteParticipant (createParticipant sampleStore 1 sampleReq).1 1).1 0
      = some sampleEvent :=
  (register_deregister_roundtrip sampleStore 1 sampleReq 0 sampleEvent (by decide) (by decide)
    (by decide) (by decide) (by decide)).2.2.2.1

/-- C6: `deleteParticipant` of an existing participant `P` whose `events` are
pairwise distinct answers 200, lowers `registered` by exactly one on every
existing event listed in `P.events` (changing nothing else of it), leaves every
event outside `P.events` as it was, and afterwards no participant has the id. -/
theorem deregister_cascade (s : Store) (id : ObjectId) (P : Participant)
    (hP : Participant.findById s id = some P) (hnd : P.events.Nodup) :
    (deleteParticipant s id).2 = ⟨200, .success "Participant deleted successfully"⟩
      ∧ (∀ e E, e ∈ P.events → Event.findById s e = some E →
          Event.findById (deleteParticipant s id).1 e
            = some { E with registered := E.registered - 1 })
      ∧ (∀ e, e ∉ P.events →
          Event.findById (deleteParticipant s id).1 e = Event.findById s e)
      ∧ Participant.findById (deleteParticipant s id).1 id = none := by
  refine ⟨by rw [deleteParticipant_found s id P hP], ?_, ?_, ?_⟩
  · intro e E he hE
    rw [event_findById_after_delete s id P hP, hE, List.count_eq_one_of_mem hnd he]
    simp
  · intro e he
    rw [event_findById_after_delete s id P hP, List.count_eq_zero_of_not_mem he]
    cases Event.findById s e <;> simp
  · rw [deleteParticipant_found s id P hP]
    simp [Participant.findById, List.find?_eq_none]

theorem registerAll_counts (rs : List (ObjectId × CreateParticipantReq)) (s : Store)
    (e : ObjectId) (E : Event)
    (hrs : ∀ r ∈ rs, r.2.errors = [] ∧ r.2.eventId = some e
      ∧ Participant.validate r.2.body = true)
    (hE : Event.findById s e = some E) :
    (∀ res ∈ (registerAll s rs).2, res.status = 201)
      ∧ Event.findById (registerAll s rs).1 e
        = some { E with registered := E.registered + (rs.length : Nat) } := by
  induction rs generalizing s E with
  | nil => simp [registerAll, hE]
  | cons r t ih =>
    obtain ⟨newId, req⟩ := r
    obtain ⟨hv, he, hb⟩ := hrs (newId, req) (List.mem_cons_self _ _)
    have hstep := createParticipant_event s newId req e E hv he hb hE
    have hres := createParticipant_registered s newId req e E hv he hb hE
    have ht := ih (createParticipant s newId req).1 { E with registered := E.registered + 1 }
      (fun r hr => hrs r (List.mem_cons_of_mem _ hr)) hstep
    refine ⟨?_, ?_⟩
    · intro res hmem
      simp only [registerAll, List.mem_cons] at hmem
      rcases hmem with h | h
      · rw [h, hres]
      · exact ht.1 res h
    · simp only [registerAll]
      rw [ht.2]
      simp only [List.length_cons, Nat.cast_add, Nat.cast_one, Option.some.injEq,
        Event.mk.injEq, true_and, and_true]
      ring

/-- C9: `createParticipant` never looks at `capacity`.  For an existing event
`E`, whatever `E.capacity` and `E.registered` are, a valid registration request
answers 201 and leaves `E` with `registered` one higher and nothing else changed;
and any run of valid registration requests for `E` answers 201 every time and
leaves `registered` higher by the number of requests (three requests on
`capacity = 2`, `registered = 0` leave `registered = 3`). -/
theorem register_ignores_capacity (s : Store) (e : ObjectId) (E : Event)
    (hE : Event.findById s e = some E) :
    (∀ newId req, req.errors = [] → req.eventId = some e →
        Participant.validate req.body = true →
        (createParticipant s newId req).2
            = ⟨201, .participant (Participant.build newId req.body [e])⟩
          ∧ Event.findById (createParticipant s newId req).1 e
            = some { E with registered := E.registered + 1 })
      ∧ (∀ rs : List (ObjectId × CreateParticipantReq),
          (∀ r ∈ rs, r.2.errors = [] ∧ r.2.eventId = some e
            ∧ Participant.validate r.2.body = true) →
          (∀ res ∈ (registerAll s rs).2, res.status = 201)
            ∧ (registerAll s rs).2.length = rs.length
            ∧ Event.findById (registerAll s rs).1 e
              = some { E with registered := E.registered + (rs.length : Nat) }) := by
  refine ⟨?_, ?_⟩
  · intro newId req hv he hb
    refine ⟨?_, createParticipant_event s newId req e E hv he hb hE⟩
    rw [createParticipant_registered s newId req e E hv he hb hE]
  · intro rs hrs
    have h := registerAll_counts rs s e E hrs hE
    refine ⟨h.1, ?_, h.2⟩
    clear h hrs hE
    induction rs generalizing s with
    | nil => rfl
    | cons r t ih =>
      obtain ⟨newId, req⟩ := r
      simp [registerAll, ih]

/-- Witness of C9, scenario A: `capacity = 2`, `registered = 0`, three
registrations, `registered = 3`. -/
theorem register_ignores_capacity_witness :
    sampleEvent.capacity = 2 ∧ sampleEvent.registered = 0
      ∧ Event.findById
          (registerAll sampleStore [(1, sampleReq), (2, sampleReq), (3, sampleReq)]).1 0
        = some { sampleEvent with registered := 3 } :=
  ⟨rfl, rfl,
    ((register_ignores_capacity sampleStore 0 sampleEvent (by decide)).2
      [(1, sampleReq), (2, sampleReq), (3, sampleReq)] (by decide)).2.2⟩

/-- Witness of C6, scenario C: a participant registered for events 0 and 5. -/
theorem deregister_cascade_witness :
    Event.findById (deleteParticipant twoEventStore 1).1 0
        = some { sampleEvent with registered := 0 }
      ∧ Participant.findById (deleteParticipant twoEventStore 1).1 1 = none :=
  ⟨(deregister_cascade twoEventStore 1 { sampleParticipant with events := [0, 5] }
      (by decide) (by decide)).2.1 0 { sampleEvent with registered := 1 }
      (by decide) (by decide),
    (deregister_cascade twoEventStore 1 { sampleParticipant with events := [0, 5] }
      (by decide) (by decide)).2.2.2⟩

/-- C8, as the code behaves: `deleteParticipant` has no floor on the counter.
For an existing participant `P` registered for an existing event `E` with
`E.registered = 0` it answers 200 "Participant deleted successfully", reports no
fault, and leaves `E.registered` at minus the number of occurrences of `E` in
`P.events`, which is negative (`-1` when the ids in `P.events` are distinct). -/
theorem deregister_goes_negative (s : Store) (id e : ObjectId) (P : Participant) (E : Event)
    (hP : Participant.findById s id = some P) (he : e ∈ P.events)
    (hE : Event.findById s e = some E) (h0 : E.registered = 0) :
    (deleteParticipant s id).2 = ⟨200, .success "Participant deleted successfully"⟩
      ∧ Event.findById (deleteParticipant s id).1 e
        = some { E with registered := -(P.events.count e : Nat) }
      ∧ -((P.events.count e : Nat) : Int) < 0
      ∧ (P.events.Nodup → Event.findById (deleteParticipant s id).1 e
        = some { E with registered := -1 }) := by
  have hfind : Event.findById (deleteParticipant s id).1 e
      = some { E with registered := -(P.events.count e : Nat) } := by
    rw [event_findById_after_delete s id P hP, hE]
    simp [h0]
  refine ⟨by rw [deleteParticipant_found s id P hP], hfind, ?_, ?_⟩
  · have := List.count_pos_iff.mpr he
    omega
  · intro hnd
    rw [hfind, List.count_eq_one_of_mem hnd he]
    simp

/-- Witness of the amended C8 on `zeroCounterStore`. -/
theorem deregister_goes_negative_witness :
    Event.findById (deleteParticipant zeroCounterStore 1).1 0
      = some { sampleEvent with registered := -((sampleParticipant.events.count 0 : Nat) : Int) } :=
  (deregister_goes_negative zeroCounterStore 1 0 sampleParticipant sampleEvent
    (by decide) (by decide) (by decide) (by decide)).2.1

/-- Counterexample to C8: the participant exists, is registered for event 0,
event 0 exists with `registered = 0`; `deleteParticipant` answers 200 and the
counter is `-1` afterwards. -/
theorem deregister_negative_counterexample :
    Participant.findById zeroCounterStore 1 = some sampleParticipant
      ∧ (0 : ObjectId) ∈ sampleParticipant.events
      ∧ Event.findById zeroCounterStore 0 = some sampleEvent
      ∧ sampleEvent.registered = 0
      ∧ (deleteParticipant zeroCounterStore 1).2
        = ⟨200, .success "Participant deleted successfully"⟩
      ∧ (Event.findById (deleteParticipant zeroCounterStore 1).1 0).map (fun E => E.registered)
        = some (-1)
      ∧ ¬ ∀ E, Event.findById (deleteParticipant zeroCounterStore 1).1 0 = some E →
          0 ≤ E.registered := by
  refine ⟨by decide, by decide, by decide, by decide, by decide, by decide, ?_⟩
  intro h
  have := h { sampleEvent with registered := -1 } (by decide)
  exact absurd this (by decide)

/-! ## Bulk import -/

theorem buildMany_length (ids : Nat → ObjectId) (events : List ObjectId)
    (start : Nat) (bs : List ParticipantBody) :
    (Participant.buildMany ids events start bs).length = bs.length := by
  induction bs generalizing start with
  | nil => rfl
  | cons b t ih => simp [Participant.buildMany, ih]

theorem buildMany_events (ids : Nat → ObjectId) (events : List ObjectId)
    (start : Nat) (bs : List ParticipantBody) :
    ∀ p ∈ Participant.buildMany ids events start bs, p.events = events := by
  induction bs generalizing start with
  | nil => simp [Participant.buildMany]
  | cons b t ih =>
    intro p hp
    simp only [Participant.buildMany, List.mem_cons] at hp
    rcases hp with h | h
    · rw [h]
      rfl
    · exact ih (start + 1) p h

theorem buildMany_ids (ids : Nat → ObjectId) (events : List ObjectId)
    (start : Nat) (bs : List ParticipantBody) :
    (Participant.buildMany ids events start bs).map (fun p => p._id)
      = (List.range bs.length).map (fun k => ids (start + k)) := by
  induction bs generalizing start with
  | nil => rfl
  | cons b t ih =>
    simp only [Participant.buildMany, List.map_cons, List.length_cons, List.range_succ_eq_map,
      List.map_map, ih]
    simp [Participant.build, Function.comp, Nat.add_assoc, Nat.add_comm 1]

theorem buildMany_getElem? (ids : Nat → ObjectId) (events : List ObjectId)
    (start : Nat) (bs : List ParticipantBody) (k : Nat) :
    (Participant.buildMany ids events start bs)[k]?
      = bs[k]?.map (fun b => Participant.build (ids (start + k)) b events) := by
  induction bs generalizing start k with
  | nil => simp [Participant.buildMany]
  | cons b t ih =>
    cases k with
    | zero => simp [Participant.buildMany]
    | succ k =>
      simp only [Participant.buildMany, List.getElem?_cons_succ, ih]
      simp [Nat.add_assoc, Nat.add_comm 1]

theorem bulkImport_inserted (s : Store) (ids : Nat → ObjectId) (eventId : ObjectId)
    (records : List ParticipantBody)
    (hins : (Participant.insertMany s ids records [eventId]).isSome = true) :
    bulkImport s ids eventId records
      = (Event.findByIdAndUpdate
            { s with participants :=
                s.participants ++ Participant.buildMany ids [eventId] 0 records }
            eventId ((Participant.buildMany ids [eventId] 0 records).map (fun p => p._id))
            (Participant.buildMany ids [eventId] 0 records).length,
          ⟨201, .participants (Participant.buildMany ids [eventId] 0 records)⟩) := by
  unfold Participant.insertMany at hins
  by_cases hall : records.all Participant.validate = true
  · simp only [bulkImport, Participant.insertMany, hall, if_true]
  · simp [hall] at hins

/-- C7: when the bulk insert of `records` succeeds and event `eventId` exists,
`bulkImport` answers 201 with the created participants; there is one per
record, the `k`-th built from the `k`-th record under the `k`-th generated id,
each with `events = [eventId]`; they are appended to the participant
collection; the event gets exactly their ids appended to `participants` and
`registered` raised by their number, nothing else of it changes; and every
other event is as before. -/
theorem bulkImport_reconciles (s : Store) (ids : Nat → ObjectId) (eventId : ObjectId)
    (records : List ParticipantBody) (E : Event)
    (hE : Event.findById s eventId = some E)
    (hins : (Participant.insertMany s ids records [eventId]).isSome = true) :
    (bulkImport s ids eventId records).2
        = ⟨201, .participants (Participant.buildMany ids [eventId] 0 records)⟩
      ∧ (Participant.buildMany ids [eventId] 0 records).length = records.length
      ∧ (∀ k, (Participant.buildMany ids [eventId] 0 records)[k]?
          = records[k]?.map (fun b => Participant.build (ids k) b [eventId]))
      ∧ (∀ p ∈ Participant.buildMany ids [eventId] 0 records, p.events = [eventId])
      ∧ (bulkImport s ids eventId records).1.participants
        = s.participants ++ Participant.buildMany ids [eventId] 0 records
      ∧ Event.findById (bulkImport s ids eventId records).1 eventId
        = some { E with
            participants := E.participants
              ++ (Participant.buildMany ids [eventId] 0 records).map (fun p => p._id),
            registered := E.registered + (records.length : Nat) }
      ∧ (∀ e, e ≠ eventId →
          Event.findById (bulkImport s ids eventId records).1 e = Event.findById s e) := by
  have hb := bulkImport_inserted s ids eventId records hins
  have hid : E._id = eventId := event_findById_id hE
  refine ⟨by rw [hb], buildMany_length _ _ _ _, ?_,
    buildMany_events _ _ _ _, by rw [hb]; rfl, ?_, ?_⟩
  · intro k
    rw [buildMany_getElem?, Nat.zero_add]
  · rw [hb, event_findById_update]
    have hE2 : Event.findById
        { s with participants :=
            s.participants ++ Participant.buildMany ids [eventId] 0 records } eventId
        = some E := hE
    rw [hE2]
    simp [hid, buildMany_length]
  · intro e he
    rw [hb, event_findById_update]
    have hE2 : Event.findById
        { s with participants :=
            s.participants ++ Participant.buildMany ids [eventId] 0 records } e
        = Event.findById s e := rfl
    rw [hE2]
    cases h : Event.findById s e with
    | none => rfl
    | some E2 =>
      have := event_findById_id h
      simp [this, he]

/-- Witness of C7: two records imported into `sampleStore`. -/
theorem bulkImport_reconciles_witness :
    Event.findById (bulkImport sampleStore (fun k => k + 10) 0 [sampleBody, sampleBody]).1 0
      = some { sampleEvent with
          participants := sampleEvent.participants
            ++ (Participant.buildMany (fun k => k + 10) [0] 0 [sampleBody, sampleBody]).map
                (fun p => p._id),
          registered := sampleEvent.registered + (([sampleBody, sampleBody].length : Nat) : Int) } :=
  (bulkImport_reconciles sampleStore (fun k => k + 10) 0 [sampleBody, sampleBody] sampleEvent
    (by decide) (by decide)).2.2.2.2.2.1

/-! ## The event-side list against the counter -/

/-- C1 on the code: from a store whose only event has `registered = 0` and no
participants, one successful `createParticipant` leaves `registered = 1` with
`participants` still empty; and after a successful `bulkImport` of one record,
`deleteParticipant` of the imported participant leaves `registered = 0` with
its id still in `participants`. -/
theorem counter_diverges_from_list :
    (createParticipant sampleStore 1 sampleReq).2.status = 201
      ∧ (Event.findById (createParticipant sampleStore 1 sampleReq).1 0).map
          (fun E => (E.registered, E.participants)) = some (1, [])
      ∧ (bulkImport sampleStore (fun k => k + 10) 0 [sampleBody]).2.status = 201
      ∧ (deleteParticipant (bulkImport sampleStore (fun k => k + 10) 0 [sampleBody]).1 10).2.status
        = 200
      ∧ (Event.findById
          (deleteParticipant (bulkImport sampleStore (fun k => k + 10) 0 [sampleBody]).1 10).1
          0).map (fun E => (E.registered, E.participants)) = some (0, [10]) := by
  decide

/-- C2 on the code: after one successful `createParticipant` for event 0 the
new participant 1 exists and lists event 0, event 0 exists, and event 0 does
not list participant 1. -/
theorem membership_one_sided :
    (createParticipant sampleStore 1 sampleReq).2.status = 201
      ∧ (Participant.findById (createParticipant sampleStore 1 sampleReq).1 1).map
          (fun P => decide (0 ∈ P.events)) = some true
      ∧ (Event.findById (createParticipant sampleStore 1 sampleReq).1 0).map
          (fun E => decide (1 ∈ E.participants)) = some false := by
  decide

/-! ## The counter against the participant side -/

theorem registrations_unlisted {s : Store} {id : ObjectId} (h : s.unlisted id) :
    registrations s id = 0 := by
  unfold registrations
  rw [List.countP_eq_zero]
  intro p hp
  simpa using h p hp

theorem consistent_empty : Consistent { events := [], participants := [] } :=
  ⟨by simp, by simp, by simp⟩

theorem consistent_createEvent {s : Store} (hs : Consistent s) (newId : ObjectId)
    (req : CreateEventReq) (hfresh : s.unlisted newId) (hr : req.body.registered = none) :
    Consistent (createEvent s newId req).1 := by
  unfold createEvent Event.create
  by_cases herr : req.errors.isEmpty = true
  · by_cases hval : Event.validate req.body = true
    · simp only [herr, hval, Bool.not_true, Bool.false_eq_true, if_false, if_true]
      refine ⟨hs.ids_nodup, hs.events_nodup, ?_⟩
      intro E hE
      simp only [List.mem_append, List.mem_singleton] at hE
      rcases hE with h | h
      · exact hs.counter E h
      · have h0 : registrations s newId = 0 := registrations_unlisted hfresh
        rw [h]
        simp only [Event.build, hr, Option.getD_none]
        show (0 : Int) = ((registrations s newId : Nat) : Int)
        rw [h0]
        rfl
    · simpa [herr, hval] using hs
  · simpa [herr] using hs

theorem consistent_deleteEvent {s : Store} (hs : Consistent s) (user id : ObjectId) :
    Consistent (deleteEvent s user id).1 := by
  unfold deleteEvent
  cases hfind : Event.findById s id with
  | none => simpa using hs
  | some event =>
    by_cases hu : event.organizer = user
    · simp only [hu, bne_self_eq_false, Bool.false_eq_true, if_false]
      refine ⟨hs.ids_nodup, hs.events_nodup, ?_⟩
      intro E hE
      exact hs.counter E (List.mem_of_mem_filter hE)
    · simpa [hu] using hs

theorem participant_eq_of_id {l : List Participant} (hnd : (l.map (fun p => p._id)).Nodup)
    {p q : Participant} (hp : p ∈ l) (hq : q ∈ l) (h : p._id = q._id) : p = q :=
  List.inj_on_of_nodup_map hnd hp hq h

theorem consistent_save {s : Store} (hs : Consistent s) {p q : Participant}
    (hp : p ∈ s.participants) (hid : q._id = p._id) (hev : q.events = p.events) :
    Consistent (Participant.save s q) := by
  have hpoint : ∀ r ∈ s.participants,
      (if r._id = q._id then q else r)._id = r._id
        ∧ (if r._id = q._id then q else r).events = r.events := by
    intro r hr
    by_cases h : r._id = q._id
    · have hrp : r = p := participant_eq_of_id hs.ids_nodup hr hp (h.trans hid)
      rw [if_pos h]
      exact ⟨h.symm, by rw [hev, hrp]⟩
    · simp [h]
  refine ⟨?_, ?_, ?_⟩
  · have : (Participant.save s q).participants.map (fun p => p._id)
        = s.participants.map (fun p => p._id) := by
      simp only [Participant.save, List.map_map]
      apply List.map_congr_left
      intro r hr
      exact (hpoint r hr).1
    rw [this]
    exact hs.ids_nodup
  · intro r hr
    simp only [Participant.save, List.mem_map] at hr
    obtain ⟨r0, hr0, rfl⟩ := hr
    rw [(hpoint r0 hr0).2]
    exact hs.events_nodup r0 hr0
  · intro E hE
    have hreg : registrations (Participant.save s q) E._id = registrations s E._id := by
      simp only [registrations, Participant.save, List.countP_map]
      apply List.countP_congr
      intro r hr
      simp only [Function.comp, (hpoint r hr).2]
    rw [hreg]
    exact hs.counter E hE

theorem consistent_checkIn {s : Store} (hs : Consistent s) (now : Nat) (id eventId : ObjectId) :
    Consistent (checkInParticipant s now id eventId).1 := by
  cases hfind : Participant.findById s id with
  | none =>
    have h1 : (checkInParticipant s now id eventId).1 = s := by
      simp [checkInParticipant, hfind]
    rw [h1]
    exact hs
  | some p =>
    by_cases he : eventId ∈ p.events
    · by_cases hc : p.checkedIn = true
      · have h1 : (checkInParticipant s now id eventId).1 = s := by
          simp [checkInParticipant, hfind, he, hc]
        rw [h1]
        exact hs
      · have h1 : (checkInParticipant s now id eventId).1
            = Participant.save s { p with checkedIn := true, checkInTime := some now } := by
          simp [checkInParticipant, hfind, he, hc]
        rw [h1]
        exact consistent_save hs (participant_findById_mem hfind) rfl rfl
    · have h1 : (checkInParticipant s now id eventId).1 = s := by
        simp [checkInParticipant, hfind, he]
      rw [h1]
      exact hs

theorem countP_listing {created : List Participant} {e : ObjectId}
    (hev : ∀ p ∈ created, p.events = [e]) (x : ObjectId) :
    created.countP (fun p => p.events.contains x) = if x = e then created.length else 0 := by
  induction created with
  | nil => simp
  | cons a t ih =>
    have ha : a.events = [e] := hev a (List.mem_cons_self _ _)
    have ht := ih (fun p hp => hev p (List.mem_cons_of_mem _ hp))
    rw [List.countP_cons, ht]
    by_cases hx : x = e
    · simp [hx, ha]
    · simp [hx, ha]

theorem consistent_register {s : Store} (hs : Consistent s) (e : ObjectId)
    (created : List Participant) (push : List ObjectId)
    (hev : ∀ p ∈ created, p.events = [e])
    (hnd : (created.map (fun p => p._id)).Nodup)
    (hfresh : ∀ p ∈ created, ∀ q ∈ s.participants, q._id ≠ p._id) :
    Consistent (Event.findByIdAndUpdate
      { s with participants := s.participants ++ created } e push created.length) := by
  refine ⟨?_, ?_, ?_⟩
  · simp only [Event.findByIdAndUpdate, List.map_append]
    rw [List.nodup_append]
    refine ⟨hs.ids_nodup, hnd, ?_⟩
    intro a ha1 ha2
    simp only [List.mem_map] at ha1 ha2
    obtain ⟨q, hq, rfl⟩ := ha1
    obtain ⟨p, hp, hpq⟩ := ha2
    exact hfresh p hp q hq hpq.symm
  · intro p hp
    simp only [Event.findByIdAndUpdate, List.mem_append] at hp
    rcases hp with h | h
    · exact hs.events_nodup p h
    · rw [hev p h]
      simp
  · intro E1 hE1
    simp only [Event.findByIdAndUpdate, List.mem_map] at hE1
    obtain ⟨E, hE, rfl⟩ := hE1
    have hold := hs.counter E hE
    have hreg : ∀ x, registrations (Event.findByIdAndUpdate
        { s with participants := s.participants ++ created } e push created.length) x
        = registrations s x + (if x = e then created.length else 0) := by
      intro x
      simp only [registrations, Event.findByIdAndUpdate, List.countP_append, countP_listing hev x]
    by_cases h : E._id = e
    · rw [if_pos h, hreg]
      simp only [h, if_true, Nat.cast_add]
      rw [hold, h]
    · rw [if_neg h, hreg]
      simp only [h, if_false, Nat.add_zero]
      exact hold

theorem consistent_add_unregistered {s : Store} (hs : Consistent s) (p : Participant)
    (hev : p.events = []) (hfresh : ∀ q ∈ s.participants, q._id ≠ p._id) :
    Consistent { s with participants := s.participants ++ [p] } := by
  refine ⟨?_, ?_, ?_⟩
  · simp only [List.map_append, List.map_cons, List.map_nil]
    rw [List.nodup_append]
    refine ⟨hs.ids_nodup, by simp, ?_⟩
    intro a ha1 ha2
    simp only [List.mem_map, List.mem_singleton] at ha1 ha2
    obtain ⟨q, hq, rfl⟩ := ha1
    exact hfresh q hq ha2
  · intro q hq
    simp only [List.mem_append, List.mem_singleton] at hq
    rcases hq with h | h
    · exact hs.events_nodup q h
    · rw [h, hev]
      simp
  · intro E hE
    have hreg : registrations { s with participants := s.participants ++ [p] } E._id
        = registrations s E._id := by
      simp [registrations, List.countP_append, hev]
    rw [hreg]
    exact hs.counter E hE

theorem consistent_createParticipant {s : Store} (hs : Consistent s) (newId : ObjectId)
    (req : CreateParticipantReq) (hfresh : s.freeParticipantId newId) :
    Consistent (createParticipant s newId req).1 := by
  by_cases herr : req.errors.isEmpty = true
  · by_cases hval : Participant.validate req.body = true
    · cases hid : req.eventId with
      | none =>
        have h1 : (createParticipant s newId req).1
            = { s with participants := s.participants ++ [Participant.build newId req.body []] } := by
          simp [createParticipant, herr, hval, hid, Participant.create]
        rw [h1]
        exact consistent_add_unregistered hs _ rfl hfresh
      | some e =>
        cases hfind : Event.findById s e with
        | none =>
          have h1 : (createParticipant s newId req).1 = s := by
            simp [createParticipant, herr, hid, hfind]
          rw [h1]
          exact hs
        | some E =>
          have h1 : (createParticipant s newId req).1
              = Event.findByIdAndUpdate
                  { s with participants :=
                      s.participants ++ [Participant.build newId req.body [e]] }
                  e [] ([Participant.build newId req.body [e]].length : Nat) := by
            simp [createParticipant, herr, hval, hid, hfind, Participant.create]
          rw [h1]
          apply consistent_register hs
          · intro p hp
            rw [List.mem_singleton.mp hp]
            rfl
          · simp
          · intro p hp
            rw [List.mem_singleton.mp hp]
            exact hfresh
    · have h1 : (createParticipant s newId req).1 = s := by
        unfold createParticipant Participant.create
        simp only [herr, hval, Bool.not_true, Bool.false_eq_true, if_false]
        cases req.eventId with
        | none => rfl
        | some e => cases h : Event.findById s e <;> simp [h]
      rw [h1]
      exact hs
  · have h1 : (createParticipant s newId req).1 = s := by
      simp [createParticipant, herr]
    rw [h1]
    exact hs

theorem consistent_bulkImport {s : Store} (hs : Consistent s) (ids : Nat → ObjectId)
    (eventId : ObjectId) (records : List ParticipantBody)
    (hfresh : ∀ k, k < records.length → s.freeParticipantId (ids k))
    (hinj : ∀ i j, i < records.length → j < records.length → ids i = ids j → i = j) :
    Consistent (bulkImport s ids eventId records).1 := by
  cases hins : Participant.insertMany s ids records [eventId] with
  | none =>
    have h1 : (bulkImport s ids eventId records).1 = s := by
      simp [bulkImport, hins]
    rw [h1]
    exact hs
  | some r =>
    rw [bulkImport_inserted s ids eventId records (by simp [hins])]
    have hids := buildMany_ids ids [eventId] 0 records
    simp only [Nat.zero_add] at hids
    apply consistent_register hs
    · exact buildMany_events _ _ _ _
    · rw [hids]
      rw [List.nodup_map_iff_inj_on (List.nodup_range _)]
      intro i hi j hj hij
      exact hinj i j (List.mem_range.mp hi) (List.mem_range.mp hj) hij
    · intro p hp q hq
      have hmem : p._id ∈ (Participant.buildMany ids [eventId] 0 records).map (fun p => p._id) :=
        List.mem_map_of_mem _ hp
      rw [hids, List.mem_map] at hmem
      obtain ⟨k, hk, hkp⟩ := hmem
      rw [← hkp]
      exact hfresh k (List.mem_range.mp hk) q hq

theorem countP_remove {l : List Participant} (hnd : (l.map (fun p => p._id)).Nodup)
    {P : Participant} (hP : P ∈ l) (pred : Participant → Bool) :
    l.countP pred
      = (l.filter (fun q => q._id != P._id)).countP pred + (if pred P = true then 1 else 0) := by
  induction l with
  | nil => simp at hP
  | cons a t ih =>
    simp only [List.map_cons, List.nodup_cons, List.mem_map, not_exists, not_and] at hnd
    obtain ⟨hat, hnt⟩ := hnd
    rcases List.mem_cons.mp hP with h | h
    · subst h
      have hfil : t.filter (fun q => q._id != P._id) = t := by
        apply participant_filter_fresh
        intro q hq hqa
        exact hat q hq hqa
      rw [List.filter_cons]
      simp only [bne_self_eq_false, Bool.false_eq_true, if_false, hfil, List.countP_cons]
    · have hne : a._id ≠ P._id := fun hc => hat P h hc.symm
      have hkeep : (a._id != P._id) = true := by simpa using hne
      rw [List.filter_cons, if_pos hkeep, List.countP_cons, List.countP_cons, ih hnt h]
      omega

theorem consistent_deleteParticipant {s : Store} (hs : Consistent s) (id : ObjectId) :
    Consistent (deleteParticipant s id).1 := by
  cases hfind : Participant.findById s id with
  | none =>
    have h1 : (deleteParticipant s id).1 = s := by
      simp [deleteParticipant, hfind]
    rw [h1]
    exact hs
  | some P =>
    have hid := participant_findById_id hfind
    have hmem := participant_findById_mem hfind
    rw [deleteParticipant_found s id P hfind]
    refine ⟨?_, ?_, ?_⟩
    · exact List.Nodup.sublist (List.Sublist.map _ (List.filter_sublist _)) hs.ids_nodup
    · intro p hp
      exact hs.events_nodup p (List.mem_of_mem_filter hp)
    · intro E1 hE1
      simp only [List.mem_map] at hE1
      obtain ⟨E, hE, rfl⟩ := hE1
      have hold := hs.counter E hE
      have hcount := countP_remove hs.ids_nodup hmem (fun p => p.events.contains E._id)
      simp only [registrations] at hold ⊢
      rw [hid] at hcount
      rw [hold, hcount]
      by_cases hin : E._id ∈ P.events
      · rw [List.count_eq_one_of_mem (hs.events_nodup P hmem) hin]
        simp [hin]
      · rw [List.count_eq_zero_of_not_mem hin]
        simp [hin]

theorem ReachableUnlisted.consistent {s : Store} (h : ReachableUnlisted s) : Consistent s := by
  induction h with
  | empty => exact consistent_empty
  | createEvent newId req _ _ hun hr _ ih => exact consistent_createEvent ih newId req hun hr
  | createParticipant newId req _ hfree ih => exact consistent_createParticipant ih newId req hfree
  | bulkImport ids eventId records _ hfree hinj ih =>
    exact consistent_bulkImport ih ids eventId records hfree hinj
  | deleteParticipant id _ ih => exact consistent_deleteParticipant ih id
  | checkInParticipant now id eventId _ ih => exact consistent_checkIn ih now id eventId
  | deleteEvent user id _ ih => exact consistent_deleteEvent ih user id

/-- Every store of `ReachableUnlisted` is a store of `Reachable`. -/
theorem ReachableUnlisted.reachable {s : Store} (h : ReachableUnlisted s) : Reachable s := by
  induction h with
  | empty => exact Reachable.empty
  | createEvent newId req _ hfree _ hr hp ih => exact Reachable.createEvent newId req ih hfree hr hp
  | createParticipant newId req _ hfree ih => exact Reachable.createParticipant newId req ih hfree
  | bulkImport ids eventId records _ hfree hinj ih =>
    exact Reachable.bulkImport ids eventId records ih hfree hinj
  | deleteParticipant id _ ih => exact Reachable.deleteParticipant id ih
  | checkInParticipant now id eventId _ ih => exact Reachable.checkInParticipant now id eventId ih
  | deleteEvent user id _ ih => exact Reachable.deleteEvent user id ih

theorem reachable_recreatedStore : Reachable recreatedStore :=
  Reachable.createEvent 0 sampleEventReq
    (Reachable.deleteEvent 7 0
      (Reachable.createParticipant 1 sampleReq
        (Reachable.createEvent 0 sampleEventReq Reachable.empty (by decide) rfl rfl)
        (by decide)))
    (by decide) rfl rfl

/-- C10, as amended: in every store reachable from the empty store by
`createEvent` (with the default `registered = 0` and no participants),
`createParticipant`, `bulkImport`, `deleteParticipant`, `checkInParticipant` and
`deleteEvent`, where every insert is under an id free in its collection and no
event is created under an id that an existing participant lists, every existing
event's `registered` equals the number of existing participants whose `events`
list contains the event's id; in particular it is not negative. -/
theorem registered_counts_participants (s : Store) (h : ReachableUnlisted s) :
    ∀ E ∈ s.events,
      E.registered = ((s.participants.countP (fun p => p.events.contains E._id) : Nat) : Int)
        ∧ 0 ≤ E.registered := by
  intro E hE
  have hc : E.registered = ((s.participants.countP (fun p => p.events.contains E._id) : Nat) : Int) :=
    h.consistent.counter E hE
  refine ⟨hc, ?_⟩
  rw [hc]
  exact Int.natCast_nonneg _

/-- Witness of the amended C10: an event is created, then a participant
registers for it; the event then has `registered = 1` and one participant lists
it. -/
theorem registered_counts_participants_witness :
    ({ sampleEvent with registered := 1 } : Event).registered
        = ((registeredStore.participants.countP (fun p => p.events.contains 0) : Nat) : Int)
      ∧ 0 ≤ ({ sampleEvent with registered := 1 } : Event).registered :=
  registered_counts_participants registeredStore
    (ReachableUnlisted.createParticipant 1 sampleReq
      (ReachableUnlisted.createEvent 0 sampleEventReq ReachableUnlisted.empty (by decide)
        (by decide) rfl rfl)
      (by decide))
    { sampleEvent with registered := 1 } (by decide)

/-- Counterexample to C10: `createEvent` under id 0, `createParticipant` 1 for
event 0, `deleteEvent` 0, `createEvent` under id 0 again.  The store is
reachable, its event 0 has `registered = 0` while one existing participant lists
event 0; `deleteParticipant` 1 then leaves `registered = -1`.  So the counter is
neither the number of listing participants nor non-negative in every reachable
store. -/
theorem recreated_event_counterexample :
    Reachable recreatedStore
      ∧ recreatedStore.events = [sampleEvent]
      ∧ sampleEvent.registered = 0
      ∧ recreatedStore.participants.countP (fun p => p.events.contains sampleEvent._id) = 1
      ∧ Reachable negativeStore
      ∧ negativeStore.events = [{ sampleEvent with registered := -1 }]
      ∧ (¬ ∀ s, Reachable s → ∀ E ∈ s.events,
          E.registered
            = ((s.participants.countP (fun p => p.events.contains E._id) : Nat) : Int))
      ∧ ¬ ∀ s, Reachable s → ∀ E ∈ s.events, 0 ≤ E.registered := by
  refine ⟨reachable_recreatedStore, by decide, by decide, by decide,
    Reachable.deleteParticipant 1 reachable_recreatedStore, by decide, ?_, ?_⟩
  · intro h
    exact absurd (h recreatedStore reachable_recreatedStore sampleEvent (by decide))
      (by decide)
  · intro h
    exact absurd (h negativeStore (Reachable.deleteParticipant 1 reachable_recreatedStore)
      { sampleEvent with registered := -1 } (by decide)) (by decide)

end EventManager
